import Mathlib

/-!
Verification of the schedule-generation core of the Planerka backend
(`backend/app/scheduler/`): the SAT variable encoder, the infeasibility
prober, the hard/soft/custom constraint compiler, the solver wrapper and
the generator orchestration.

Shallow-embedding conventions:
* UUIDs and integer teacher ids are opaque keys; both are modelled as `Nat`
  (the code only compares them for equality, and orders study-group ids
  with `min`/`max`, which `Nat` supports).
* Python dicts are modelled as insertion-ordered association lists;
  `dict.get(k, d)` is `lookupD`, `dict[k] = v` is `dsetKV` (overwrite in
  place, append if new).  Python sets that are only membership-tested are
  plain lists.
* The nested `for`-loops of `encode_variables` enumerate candidate tuples
  and run a dedup-and-allocate body on each; the enumeration is reified as
  `candidateKeys` and the body as `addVar` folded over it.  Loops that only
  append to a result list are rendered with `concatMap`.
* `pysat.card.CardEnc.equals(lits, bound, top_id, seqcounter)` is an
  external library call; it is modelled as an explicit `CardGadget`
  parameter returning (clauses, nv), and each call additionally records the
  semantic content of the gadget (`exactly bound of lits are true`) in
  `Encoder.cards`, so that solver models can be reasoned about through the
  gadget contract without re-verifying pysat.
* The glucose3 solver is modelled as a `SolverOracle` parameter; a model is
  an assignment `Nat → Bool` (the pysat model lists each variable once with
  a sign, and `extract_schedule` keeps the positive ones that are encoder
  variables).
* Fixed message strings are modelled as enumerations (`InvalidReason`,
  `InfeasibleReason`, `GenResult`); the constructors are noted next to the
  exact source text.
-/

namespace Planerka

abbrev LessonId := Nat
abbrev TeacherId := Nat
abbrev GroupId := Nat
abbrev RoomId := Nat
abbrev SlotId := Nat
abbrev StudentId := Nat

/-- A candidate tuple `(lesson, teacher, group, room, time_slot)` — the key
type of `ScheduleEncoder.vars`. -/
structure VKey where
  lesson : LessonId
  teacher : TeacherId
  group : GroupId
  room : RoomId
  slot : SlotId
deriving DecidableEq

/-- The `group_types` values: the strings `"class_group"` / `"study_group"`. -/
inductive GType where
  | classGroup
  | studyGroup
deriving DecidableEq

/-- `concatMap l f` renders a loop over `l` that only appends `f x` to an
accumulating result list. -/
def concatMap : List α → (α → List β) → List β
  | [], _ => []
  | x :: xs, f => f x ++ concatMap xs f

/-- First-match association lookup (Python dict access on uniquely-keyed
dicts). -/
def alookup [DecidableEq α] : List (α × β) → α → Option β
  | [], _ => none
  | (k', v) :: rest, k => if k' = k then some v else alookup rest k

/-- `d.get(k, default)`. -/
def lookupD [DecidableEq α] (l : List (α × β)) (k : α) (d : β) : β :=
  (alookup l k).getD d

/-- `d[k] = v`: overwrite in place, append if the key is new. -/
def dsetKV [DecidableEq α] : List (α × β) → α → β → List (α × β)
  | [], k, v => [(k, v)]
  | (k', v') :: rest, k, v =>
      if k' = k then (k, v) :: rest else (k', v') :: dsetKV rest k v

/-- One value of `student_group_memberships`: `class_group_id` may be
`None` (a student row with no class group), `study_group_ids` is the list
of study groups the student belongs to. -/
structure StudentMembership where
  classGroupId : Option GroupId
  studyGroupIds : List GroupId
deriving DecidableEq

/-- A row of the `constraints` list (`constraint_type` + the fields of
`constraint_data` that `encode_custom_constraints` reads; `priority` is
read but never used).  The `teacher_id` / `room_id` payload entries are
optional because `constraint_data.get` may return `None`.  The
`class_preference`, `study_group_preference` and `consecutive_preference`
kinds (and unrecognized kinds) are accepted and emit nothing. -/
inductive CustomConstraint where
  | teacherUnavailable (teacherId : Option TeacherId) (slotIds : List SlotId)
  | roomUnavailable (roomId : Option RoomId) (slotIds : List SlotId)
  | classPreference
  | studyGroupPreference
  | consecutivePreference
  | unknown
deriving DecidableEq

/-- The data bundle returned by `ConstraintBuilder.build_from_institution`
and consumed by `ScheduleGenerator.generate`. -/
structure SchedulingInput where
  lessons : List LessonId
  teachers : List TeacherId
  classGroups : List GroupId
  studyGroups : List GroupId
  rooms : List RoomId
  timeSlots : List SlotId
  teacherLessons : List (TeacherId × List LessonId)
  classGroupLessons : List (GroupId × List (LessonId × Nat))
  studyGroupLessons : List (GroupId × List (LessonId × Nat))
  roomCapacities : List (RoomId × Nat)
  classGroupSizes : List (GroupId × Nat)
  studyGroupSizes : List (GroupId × Nat)
  memberships : List (StudentId × StudentMembership)
  constraints : List CustomConstraint
deriving DecidableEq

/-- The `preferences` dict taken by `encode_soft_constraints`: the two keys
it inspects, each possibly absent.  The `no_gaps` branch is `pass` in the
source. -/
structure SoftPreferences where
  noGaps : Option (List VKey)
  teacherPreferences : Option (List VKey)

/-- The failure messages of `ScheduleGenerator.validate_input`, in source
order (each constructor stands for the corresponding literal string). -/
inductive InvalidReason where
  | noLessons
  | noTeachers
  | noGroups
  | noRooms
  | noTimeSlots
  | noTeachersWithLessons
  | noDemand
  | noTeachableDemand
deriving DecidableEq

/-- The three reason strings of `get_infeasible_pairs`:
`noTeacher` = "no teacher is assigned to teach this lesson for this group",
`notEnough count found` = "need {count} lesson placements but only {found}
valid (teacher, room, time slot) combination(s) ...",
`noCapacity` = "no room has sufficient capacity for this group". -/
inductive InfeasibleReason where
  | noTeacher
  | notEnough (count : Nat) (found : Nat)
  | noCapacity
deriving DecidableEq

/-- One element of the `schedule_entries` list built by `generate` on
success. -/
structure ScheduleEntry where
  lessonId : LessonId
  teacherId : TeacherId
  roomId : RoomId
  timeSlotId : SlotId
  classGroupId : Option GroupId
  studyGroupId : Option GroupId
deriving DecidableEq

/-- The result of `generate` (source: a tuple `(success, entries, error)`).
`resourceConflict` stands for the "No solution: resource conflicts make the
schedule impossible ..." message, `capacityOrAvailability` for the "No
solution: some (lesson, group) pairs have no valid (teacher, room, time
slot) after room capacity and teacher/room unavailability ..." message. -/
inductive GenResult where
  | ok (entries : List ScheduleEntry)
  | invalidInput (reason : InvalidReason)
  | infeasible (pairs : List (LessonId × GroupId × InfeasibleReason))
  | resourceConflict
  | capacityOrAvailability
deriving DecidableEq

/-- Outcome of one call of the external glucose3 engine on the current
formula: a model (as a total assignment) or UNSAT.  `Solver.solve()`
returns a plain boolean; a `True` comes with the model read back by
`get_model()`. -/
inductive SolveRes where
  | sat (assignment : Nat → Bool)
  | unsat

/-- The external solver, abstracted: it receives the concrete clause list
and the recorded cardinality contracts (standing for the gadget clauses it
would also see). -/
abbrev SolverOracle := List (List Int) → List (List Nat × Nat) → SolveRes

/-- The external `CardEnc.equals(lits, bound, top_id, seqcounter)` call:
given literals, bound and `top_id`, returns the gadget clauses and `nv`. -/
abbrev CardGadget := List Nat → Nat → Nat → List (List Int) × Nat

/-- The mutable state of `ScheduleEncoder`.  `variables` is the
insertion-ordered dict of tuple → variable (the reverse dict of the source
is its inverse and is not duplicated); `cards` records the semantic
contract of each `CardEnc.equals` call appended to `cnf`. -/
structure Encoder where
  vars : List (VKey × Nat)
  groupTypes : List (GroupId × GType)
  nextVar : Nat
  cnf : List (List Int)
  cards : List (List Nat × Nat)

/-- `ScheduleEncoder.__init__`. -/
def initEncoder : Encoder :=
  { vars := [], groupTypes := [], nextVar := 1, cnf := [], cards := [] }

/-- The loop body of `encode_variables`: `if key not in self.vars:
allocate self.next_var and advance it`. -/
def addVar (e : Encoder) (k : VKey) : Encoder :=
  if k ∈ e.vars.map Prod.fst then e
  else { e with vars := e.vars ++ [(k, e.nextVar)],
                nextVar := e.nextVar + 1 }

/-- The two leading loops of `encode_variables`:
`self.group_types[cg] = "class_group"` for each class group, then
`self.group_types[sg] = "study_group"` for each study group. -/
def updateGroupTypes (d : List (GroupId × GType)) (cgs sgs : List GroupId) :
    List (GroupId × GType) :=
  sgs.foldl (fun d g => dsetKV d g GType.studyGroup)
    (cgs.foldl (fun d g => dsetKV d g GType.classGroup) d)

/-- `self.group_types.get(group_id, "class_group")`. -/
def getGroupType (d : List (GroupId × GType)) (g : GroupId) : GType :=
  (alookup d g).getD GType.classGroup

/-- The group guard of `encode_variables`: dispatch on the recorded group
type, then test whether the lesson is a key of the matching demand dict
(the count value is not inspected). -/
def demandKeyForType (inp : SchedulingInput) (gts : List (GroupId × GType))
    (g : GroupId) (l : LessonId) : Bool :=
  match getGroupType gts g with
  | GType.classGroup =>
      (lookupD inp.classGroupLessons g []).any fun p => p.1 == l
  | GType.studyGroup =>
      (lookupD inp.studyGroupLessons g []).any fun p => p.1 == l

/-- The tuples enumerated by the nested loops of `encode_variables`, with
the two `continue`-guards (teacher capability; lesson key present in the
demand dict matching the group's recorded type).  Rooms and time slots are
enumerated without further filtering. -/
def candidateKeys (inp : SchedulingInput) (gts : List (GroupId × GType)) :
    List VKey :=
  concatMap inp.lessons fun l =>
    concatMap inp.teachers fun t =>
      if l ∈ lookupD inp.teacherLessons t [] then
        concatMap (inp.classGroups ++ inp.studyGroups) fun g =>
          if demandKeyForType inp gts g l then
            concatMap inp.rooms fun r =>
              inp.timeSlots.map fun s => VKey.mk l t g r s
          else []
      else []

/-- `ScheduleEncoder.encode_variables`. -/
def encodeVariables (inp : SchedulingInput) (e : Encoder) : Encoder :=
  let gts := updateGroupTypes e.groupTypes inp.classGroups inp.studyGroups
  (candidateKeys inp gts).foldl addVar { e with groupTypes := gts }

/-- The body of the per-pair check in `get_infeasible_pairs` (`cap` in the
source names the group size). -/
def checkPair (vars : List (VKey × Nat)) (roomCaps : List (RoomId × Nat))
    (g : GroupId) (gsize : Nat) (l : LessonId) (count : Nat) :
    List (LessonId × GroupId × InfeasibleReason) :=
  let varsFor := vars.filter fun kv => kv.1.lesson == l && kv.1.group == g
  if varsFor.isEmpty then [(l, g, InfeasibleReason.noTeacher)]
  else if varsFor.length < count then
    [(l, g, InfeasibleReason.notEnough count varsFor.length)]
  else if varsFor.any (fun kv => lookupD roomCaps kv.1.room 0 ≥ gsize) then []
  else [(l, g, InfeasibleReason.noCapacity)]

/-- One of the two symmetric loops of `get_infeasible_pairs`. -/
def infeasibleLoop (vars : List (VKey × Nat))
    (demands : List (GroupId × List (LessonId × Nat)))
    (sizes : List (GroupId × Nat)) (roomCaps : List (RoomId × Nat)) :
    List (LessonId × GroupId × InfeasibleReason) :=
  concatMap demands fun gld =>
    concatMap gld.2 fun lc =>
      checkPair vars roomCaps gld.1 (lookupD sizes gld.1 0) lc.1 lc.2

/-- `ScheduleEncoder.get_infeasible_pairs` as invoked by `generate`. -/
def getInfeasiblePairs (inp : SchedulingInput) (e : Encoder) :
    List (LessonId × GroupId × InfeasibleReason) :=
  infeasibleLoop e.vars inp.classGroupLessons inp.classGroupSizes
    inp.roomCapacities ++
  infeasibleLoop e.vars inp.studyGroupLessons inp.studyGroupSizes
    inp.roomCapacities

/-- The double loop `for i ... for j in range(i+1, ...)` appending the
pairwise at-most-one clauses `[-v_i, -v_j]`. -/
def pairwiseAMO : List Nat → List (List Int)
  | [] => []
  | v :: vs => (vs.map fun (w : Nat) => [-(v : Int), -(w : Int)]) ++ pairwiseAMO vs

/-- The double loop `for a in avs: for b in bvs: append [-a, -b]`. -/
def crossAMO (avs bvs : List Nat) : List (List Int) :=
  concatMap avs fun a => bvs.map fun (b : Nat) => [-(a : Int), -(b : Int)]

/-- The list-comprehension pattern `[var for key, var in variables.items()
if p key]`. -/
def varsWith (vars : List (VKey × Nat)) (p : VKey → Bool) : List Nat :=
  (vars.filter fun kv => p kv.1).map fun kv => kv.2

/-- Conflict block: a teacher cannot be in two places at the same time. -/
def teacherConflictClauses (vars : List (VKey × Nat))
    (teachers : List TeacherId) (slots : List SlotId) : List (List Int) :=
  concatMap teachers fun t =>
    concatMap slots fun s =>
      pairwiseAMO (varsWith vars fun k => k.teacher == t && k.slot == s)

/-- Conflict block: a group cannot have two lessons at the same time
(over `all_groups = class_groups + study_groups`). -/
def groupConflictClauses (vars : List (VKey × Nat))
    (allGroups : List GroupId) (slots : List SlotId) : List (List Int) :=
  concatMap allGroups fun g =>
    concatMap slots fun s =>
      pairwiseAMO (varsWith vars fun k => k.group == g && k.slot == s)

/-- Conflict block: a student in both a class group and study groups must
not have both scheduled in one slot (guard `if class_group_id and
study_group_ids`, i.e. the id is not `None` and the list is nonempty). -/
def studentConflictClauses (vars : List (VKey × Nat))
    (memberships : List (StudentId × StudentMembership))
    (slots : List SlotId) : List (List Int) :=
  concatMap memberships fun sm =>
    match sm.2.classGroupId with
    | none => []
    | some cg =>
        if sm.2.studyGroupIds.isEmpty then []
        else
          concatMap sm.2.studyGroupIds fun sg =>
            concatMap slots fun s =>
              crossAMO (varsWith vars fun k => k.group == cg && k.slot == s)
                (varsWith vars fun k => k.group == sg && k.slot == s)

/-- The `overlapping_sg_pairs` set: normalized `(min, max)` pairs of study
groups sharing a student, deduplicated.  Python iterates the set in a
deterministic hash order; it is modelled as insertion order here (all
properties proved about these clauses are order-insensitive). -/
def listPairs : List α → List (α × α)
  | [] => []
  | x :: xs => (xs.map fun y => (x, y)) ++ listPairs xs

def overlappingSgPairs (memberships : List (StudentId × StudentMembership)) :
    List (GroupId × GroupId) :=
  memberships.foldl
    (fun acc sm =>
      (listPairs sm.2.studyGroupIds).foldl
        (fun acc ab =>
          if ab.1 ≠ ab.2 then
            let p := (min ab.1 ab.2, max ab.1 ab.2)
            if p ∈ acc then acc else acc ++ [p]
          else acc)
        acc)
    []

/-- Conflict block: two study groups with overlapping students cannot run
in the same slot. -/
def sgPairConflictClauses (vars : List (VKey × Nat))
    (memberships : List (StudentId × StudentMembership))
    (slots : List SlotId) : List (List Int) :=
  concatMap (overlappingSgPairs memberships) fun ab =>
    concatMap slots fun s =>
      crossAMO (varsWith vars fun k => k.group == ab.1 && k.slot == s)
        (varsWith vars fun k => k.group == ab.2 && k.slot == s)

/-- Conflict block: a room cannot host two lessons at the same time. -/
def roomConflictClauses (vars : List (VKey × Nat)) (rooms : List RoomId)
    (slots : List SlotId) : List (List Int) :=
  concatMap rooms fun r =>
    concatMap slots fun s =>
      pairwiseAMO (varsWith vars fun k => k.room == r && k.slot == s)

/-- Capacity pruning: a unit clause `[-v]` for every variable whose group
size exceeds its room capacity (runs in both modes). -/
def capacityClauses (vars : List (VKey × Nat))
    (groupTypes : List (GroupId × GType)) (roomCaps : List (RoomId × Nat))
    (cSizes sSizes : List (GroupId × Nat)) : List (List Int) :=
  concatMap vars fun kv =>
    let cap := lookupD roomCaps kv.1.room 0
    let size :=
      match getGroupType groupTypes kv.1.group with
      | GType.classGroup => lookupD cSizes kv.1.group 0
      | GType.studyGroup => lookupD sSizes kv.1.group 0
    if size > cap then [[-(kv.2 : Int)]] else []

/-- The semantic contract recorded for one demand pair of the cardinality
loop: skipped when fewer variables than the required count exist. -/
def cardSpec1 (vars : List (VKey × Nat)) (g : GroupId)
    (lc : LessonId × Nat) : List (List Nat × Nat) :=
  let lessonVars :=
    (vars.filter fun kv => kv.1.lesson == lc.1 && kv.1.group == g).map
      fun kv => kv.2
  if lessonVars.length < lc.2 then [] else [(lessonVars, lc.2)]

/-- All contracts recorded by one cardinality loop. -/
def cardSpecs (vars : List (VKey × Nat)) (groups : List GroupId)
    (demands : List (GroupId × List (LessonId × Nat))) :
    List (List Nat × Nat) :=
  concatMap groups fun g => concatMap (lookupD demands g []) (cardSpec1 vars g)

/-- The `(cnf, cards, next_var)` fragment threaded through the cardinality
loops of `encode_hard_constraints`. -/
structure CardAcc where
  cnf : List (List Int)
  cards : List (List Nat × Nat)
  nextVar : Nat

/-- One iteration of the demand-cardinality loop: gather the pair's
variables, skip when too few, otherwise call `CardEnc.equals` with
`top_id = next_var - 1`, append its clauses, record its contract, and set
`next_var = max(next_var, nv + 1)`. -/
def cardStep (gadget : CardGadget) (vars : List (VKey × Nat)) (g : GroupId)
    (acc : CardAcc) (lc : LessonId × Nat) : CardAcc :=
  let lessonVars :=
    (vars.filter fun kv => kv.1.lesson == lc.1 && kv.1.group == g).map
      fun kv => kv.2
  if lessonVars.length < lc.2 then acc
  else
    let out := gadget lessonVars lc.2 (acc.nextVar - 1)
    { cnf := acc.cnf ++ out.1,
      cards := acc.cards ++ [(lessonVars, lc.2)],
      nextVar := max acc.nextVar (out.2 + 1) }

/-- One of the two demand-cardinality loops (class groups / study groups):
`for g in groups: for (lesson, count) in demands.get(g, {}).items(): ...`. -/
def cardLoop (gadget : CardGadget) (vars : List (VKey × Nat))
    (groups : List GroupId)
    (demands : List (GroupId × List (LessonId × Nat))) (acc : CardAcc) :
    CardAcc :=
  groups.foldl
    (fun acc g => (lookupD demands g []).foldl (cardStep gadget vars g) acc)
    acc

/-- `ScheduleEncoder.encode_hard_constraints`: demand cardinality for class
then study groups; unless `skip_conflicts`, the five pairwise conflict
blocks (teacher, group, class/study student overlap, overlapping study-group
pairs, room); finally capacity pruning.  `variables` and `group_types` are
not modified. -/
def encodeHardConstraints (gadget : CardGadget) (inp : SchedulingInput)
    (skipConflicts : Bool) (e : Encoder) : Encoder :=
  let acc1 := cardLoop gadget e.vars inp.classGroups
    inp.classGroupLessons ⟨e.cnf, e.cards, e.nextVar⟩
  let acc2 := cardLoop gadget e.vars inp.studyGroups
    inp.studyGroupLessons acc1
  let conflictCls :=
    if skipConflicts then []
    else
      teacherConflictClauses e.vars inp.teachers inp.timeSlots ++
      groupConflictClauses e.vars (inp.classGroups ++ inp.studyGroups)
        inp.timeSlots ++
      studentConflictClauses e.vars inp.memberships inp.timeSlots ++
      sgPairConflictClauses e.vars inp.memberships inp.timeSlots ++
      roomConflictClauses e.vars inp.rooms inp.timeSlots
  let capCls := capacityClauses e.vars e.groupTypes inp.roomCapacities
    inp.classGroupSizes inp.studyGroupSizes
  { e with cnf := acc2.cnf ++ conflictCls ++ capCls,
           cards := acc2.cards,
           nextVar := acc2.nextVar }

/-- `ScheduleEncoder.encode_custom_constraints`: unit clauses `[-v]` for
`teacher_unavailable` / `room_unavailable`; the other kinds are no-ops. -/
def customClauses (vars : List (VKey × Nat)) (cs : List CustomConstraint) :
    List (List Int) :=
  concatMap cs fun c =>
    match c with
    | CustomConstraint.teacherUnavailable tid slotIds =>
        concatMap slotIds fun s =>
          (varsWith vars fun k => some k.teacher == tid && k.slot == s).map
            fun (v : Nat) => [-(v : Int)]
    | CustomConstraint.roomUnavailable rid slotIds =>
        concatMap slotIds fun s =>
          (varsWith vars fun k => some k.room == rid && k.slot == s).map
            fun (v : Nat) => [-(v : Int)]
    | _ => []

def encodeCustomConstraints (cs : List CustomConstraint) (e : Encoder) :
    Encoder :=
  { e with cnf := e.cnf ++ customClauses e.vars cs }

/-- The unit clauses appended by the `teacher_preferences` branch of
`encode_soft_constraints`: tuples without an encoded variable are skipped. -/
def softUnitClauses (vars : List (VKey × Nat)) (keys : List VKey) :
    List (List Int) :=
  concatMap keys fun k =>
    match alookup vars k with
    | some v => [[(v : Int)]]
    | none => []

/-- `ScheduleEncoder.encode_soft_constraints`: the `no_gaps` branch is
`pass`; `teacher_preferences` tuples with an encoded variable get a
positive unit clause. -/
def encodeSoftConstraints (prefs : SoftPreferences) (e : Encoder) : Encoder :=
  match prefs.teacherPreferences with
  | none => e
  | some keys => { e with cnf := e.cnf ++ softUnitClauses e.vars keys }

/-- A signed pysat literal is satisfied by an assignment. -/
def litSat (a : Nat → Bool) (lit : Int) : Bool :=
  if 0 < lit then a lit.toNat else !a (-lit).toNat

def clauseSat (a : Nat → Bool) (c : List Int) : Bool := c.any (litSat a)

def cnfSat (a : Nat → Bool) (cnf : List (List Int)) : Bool :=
  cnf.all (clauseSat a)

def countTrue (a : Nat → Bool) (vs : List Nat) : Nat := (vs.filter a).length

/-- The recorded `CardEnc.equals` contracts hold in the assignment:
exactly `bound` of the pair's variables are true. -/
def cardsSat (a : Nat → Bool) (cards : List (List Nat × Nat)) : Bool :=
  cards.all fun vc => countTrue a vc.1 == vc.2

/-- `ScheduleSolver.solve`: builds a glucose3 solver on the current CNF and
calls `solve()`.  The `set_timeout(timeout)` attempt raises
`AttributeError` (pysat solvers expose no such method) and is swallowed by
the bare `except AttributeError: pass`, so the timeout argument does not
influence the outcome, and `solve()` returns a plain boolean. -/
def solverSolve (oracle : SolverOracle) (e : Encoder) (_timeout : Nat) :
    SolveRes :=
  oracle e.cnf e.cards

/-- The solver contract assumed of the external engine: a returned model
satisfies every concrete clause and every recorded cardinality gadget. -/
def SolverSound (oracle : SolverOracle) : Prop :=
  ∀ cnf cards a, oracle cnf cards = SolveRes.sat a →
    cnfSat a cnf = true ∧ cardsSat a cards = true

/-- A deterministic oracle used to instantiate witnesses: answer `sat a`
exactly when `a` satisfies the formula handed in. -/
def oracleOf (a : Nat → Bool) : SolverOracle := fun cnf cards =>
  if cnfSat a cnf && cardsSat a cards then SolveRes.sat a else SolveRes.unsat

/-- `ScheduleSolver.extract_schedule`: the keys of the encoder variables
assigned true, in variable order (the pysat model lists the variables in
ascending order, which coincides with insertion order of `variables`). -/
def extractSchedule (e : Encoder) (a : Nat → Bool) : List VKey :=
  ((e.vars.filter fun kv => a kv.2).map fun kv => kv.1)

/-- The entry built by `generate` for one decoded tuple, dispatching on
`group_types.get(group_id, "class_group")`. -/
def entryOf (groupTypes : List (GroupId × GType)) (k : VKey) : ScheduleEntry :=
  match getGroupType groupTypes k.group with
  | GType.classGroup =>
      { lessonId := k.lesson, teacherId := k.teacher, roomId := k.room,
        timeSlotId := k.slot, classGroupId := some k.group,
        studyGroupId := none }
  | GType.studyGroup =>
      { lessonId := k.lesson, teacherId := k.teacher, roomId := k.room,
        timeSlotId := k.slot, classGroupId := none,
        studyGroupId := some k.group }

def buildEntries (groupTypes : List (GroupId × GType))
    (schedule : List VKey) : List ScheduleEntry :=
  schedule.map (entryOf groupTypes)

/-- Sum of all demand counts of one demand map. -/
def totalCounts (demands : List (GroupId × List (LessonId × Nat))) : Nat :=
  (demands.map fun gld => (gld.2.map fun lc => lc.2).sum).sum

/-- The teachable-demand scan of `validate_input` over one demand map. -/
def anyTeachable (tl : List (TeacherId × List LessonId))
    (tw : List TeacherId)
    (demands : List (GroupId × List (LessonId × Nat))) : Bool :=
  demands.any fun gld =>
    gld.2.any fun lc => tw.any fun tid => decide (lc.1 ∈ lookupD tl tid [])

/-- `ScheduleGenerator.validate_input` (the data bundle is already built;
constructors stand for the literal error strings). -/
def validateInput (inp : SchedulingInput) : Option InvalidReason :=
  if inp.lessons.isEmpty then some InvalidReason.noLessons
  else if inp.teachers.isEmpty then some InvalidReason.noTeachers
  else if inp.classGroups.isEmpty && inp.studyGroups.isEmpty then
    some InvalidReason.noGroups
  else if inp.rooms.isEmpty then some InvalidReason.noRooms
  else if inp.timeSlots.isEmpty then some InvalidReason.noTimeSlots
  else
    let teachersWithLessons :=
      (inp.teacherLessons.filter fun p => !p.2.isEmpty).map fun p => p.1
    if teachersWithLessons.isEmpty then some InvalidReason.noTeachersWithLessons
    else if totalCounts inp.classGroupLessons +
        totalCounts inp.studyGroupLessons == 0 then
      some InvalidReason.noDemand
    else if !(anyTeachable inp.teacherLessons teachersWithLessons
          inp.classGroupLessons ||
        anyTeachable inp.teacherLessons teachersWithLessons
          inp.studyGroupLessons) then
      some InvalidReason.noTeachableDemand
    else none

/-- The encoder state handed to the solver in the main branch of
`generate`: fresh encoder, `encode_variables`, `encode_hard_constraints`
(full mode), `encode_custom_constraints`. -/
def fullEncoder (gadget : CardGadget) (inp : SchedulingInput) : Encoder :=
  encodeCustomConstraints inp.constraints
    (encodeHardConstraints gadget inp false (encodeVariables inp initEncoder))

/-- The diagnostic encoder of the UNSAT branch: rebuilt from scratch with
`skip_conflicts=True`. -/
def diagEncoder (gadget : CardGadget) (inp : SchedulingInput) : Encoder :=
  encodeCustomConstraints inp.constraints
    (encodeHardConstraints gadget inp true (encodeVariables inp initEncoder))

/-- `ScheduleGenerator.generate` (the persistence reads are abstracted into
`inp`; the debug JSON dump is I/O with no effect on the result). -/
def generate (gadget : CardGadget) (oracle : SolverOracle)
    (inp : SchedulingInput) (timeout : Nat) : GenResult :=
  match validateInput inp with
  | some reason => GenResult.invalidInput reason
  | none =>
      let e0 := encodeVariables inp initEncoder
      let infs := getInfeasiblePairs inp e0
      if infs.isEmpty then
        let e := fullEncoder gadget inp
        match solverSolve oracle e timeout with
        | SolveRes.sat a =>
            GenResult.ok (buildEntries e.groupTypes (extractSchedule e a))
        | SolveRes.unsat =>
            let d := diagEncoder gadget inp
            match solverSolve oracle d timeout with
            | SolveRes.sat _ => GenResult.resourceConflict
            | SolveRes.unsat => GenResult.capacityOrAvailability
      else GenResult.infeasible infs

/-- Variant-aware demand-key test: does the demand map matching the group's
recorded variant contain the lesson as a key (the value is irrelevant)? -/
def demandHasKey (inp : SchedulingInput) (g : GroupId) (l : LessonId) : Bool :=
  demandKeyForType inp (updateGroupTypes [] inp.classGroups inp.studyGroups) g l

/-- The disjunction of prober conditions for one `(lesson, group)` pair:
no variable at all, fewer variables than the required count, or no variable
whose room can seat the group. -/
def pairFails (vars : List (VKey × Nat)) (roomCaps : List (RoomId × Nat))
    (g : GroupId) (gsize : Nat) (l : LessonId) (count : Nat) : Prop :=
  let varsFor := vars.filter fun kv => kv.1.lesson == l && kv.1.group == g
  varsFor = [] ∨ varsFor.length < count ∨
    ∀ kv ∈ varsFor, lookupD roomCaps kv.1.room 0 < gsize

/-- The `(cnf, cards, next_var)` state after the two demand-cardinality
loops of the generator's encoder (identical in full and stripped mode). -/
def demandCardAcc (gadget : CardGadget) (inp : SchedulingInput) : CardAcc :=
  let e0 := encodeVariables inp initEncoder
  cardLoop gadget e0.vars inp.studyGroups inp.studyGroupLessons
    (cardLoop gadget e0.vars inp.classGroups inp.classGroupLessons
      ⟨e0.cnf, e0.cards, e0.nextVar⟩)

/-- The five pairwise conflict blocks of the generator's full encoding, in
emission order. -/
def conflictClausesAll (inp : SchedulingInput) : List (List Int) :=
  let v := (encodeVariables inp initEncoder).vars
  teacherConflictClauses v inp.teachers inp.timeSlots ++
  groupConflictClauses v (inp.classGroups ++ inp.studyGroups) inp.timeSlots ++
  studentConflictClauses v inp.memberships inp.timeSlots ++
  sgPairConflictClauses v inp.memberships inp.timeSlots ++
  roomConflictClauses v inp.rooms inp.timeSlots

/-- The capacity pruning block of the generator's encoding. -/
def capacityClausesOf (inp : SchedulingInput) : List (List Int) :=
  capacityClauses (encodeVariables inp initEncoder).vars
    (encodeVariables inp initEncoder).groupTypes inp.roomCapacities
    inp.classGroupSizes inp.studyGroupSizes

/-- The custom-constraint block of the generator's encoding. -/
def customClausesOf (inp : SchedulingInput) : List (List Int) :=
  customClauses (encodeVariables inp initEncoder).vars inp.constraints

/-- Well-formedness of the encoder variable table: distinct keys, distinct
variable numbers, all numbers in `[1, next_var)`. -/
structure EncWF (e : Encoder) : Prop where
  keysNodup : (e.vars.map Prod.fst).Nodup
  valsNodup : (e.vars.map Prod.snd).Nodup
  valsBound : ∀ v ∈ e.vars.map Prod.snd, 1 ≤ v ∧ v < e.nextVar
  nextPos : 1 ≤ e.nextVar

/-- A gadget placeholder used in concrete runs: contributes no clauses (its
semantic content is carried by `Encoder.cards`). -/
def trivGadget : CardGadget := fun _ _ topId => ([], topId)

/-- The always-UNSAT oracle. -/
def constUnsatOracle : SolverOracle := fun _ _ => SolveRes.unsat

/-- The everything-else-false assignment making exactly variable 1 true. -/
def a1 : Nat → Bool := fun v => v == 1

/-- A minimal satisfiable input: one lesson, one teacher able to teach it,
one class group demanding it once, one room (capacity 30, group size 10),
one slot. -/
def w1Input : SchedulingInput :=
  { lessons := [0], teachers := [0], classGroups := [0], studyGroups := [],
    rooms := [0], timeSlots := [0],
    teacherLessons := [(0, [0])],
    classGroupLessons := [(0, [(0, 1)])], studyGroupLessons := [],
    roomCapacities := [(0, 30)], classGroupSizes := [(0, 10)],
    studyGroupSizes := [], memberships := [], constraints := [] }

def w1Entries : List ScheduleEntry :=
  [{ lessonId := 0, teacherId := 0, roomId := 0, timeSlotId := 0,
     classGroupId := some 0, studyGroupId := none }]

/-- `w1Input` with the demand count set to 0: the pair `(0, 0)` is still a
key of the class demand map, so a variable is allocated. -/
def cex4Input : SchedulingInput :=
  { w1Input with classGroupLessons := [(0, [(0, 0)])] }

/-- Demand count 0 for lesson 7 of group 5, and no teacher able to teach
it: the prober still reports the pair. -/
def cex5Input : SchedulingInput :=
  { lessons := [7], teachers := [0], classGroups := [5], studyGroups := [],
    rooms := [0], timeSlots := [0],
    teacherLessons := [(0, [])],
    classGroupLessons := [(5, [(7, 0)])], studyGroupLessons := [],
    roomCapacities := [(0, 30)], classGroupSizes := [(5, 10)],
    studyGroupSizes := [], memberships := [], constraints := [] }

/-- Capacity shortfall: group of 50 students, single room of capacity 20. -/
def cex6Input : SchedulingInput :=
  { w1Input with roomCapacities := [(0, 20)], classGroupSizes := [(0, 50)] }

/-! ### List and association-list lemmas -/

theorem mem_concatMap {l : List α} {f : α → List β} {b : β} :
    b ∈ concatMap l f ↔ ∃ a ∈ l, b ∈ f a := by
  induction l with
  | nil => simp [concatMap]
  | cons x xs ih => simp [concatMap, ih]

theorem concatMap_eq_nil {l : List α} {f : α → List β} :
    concatMap l f = [] ↔ ∀ a ∈ l, f a = [] := by
  induction l with
  | nil => simp [concatMap]
  | cons x xs ih => simp [concatMap, ih]

theorem mem_concatMap2 {l1 : List α} {l2 : List β} {f : α → β → List γ}
    {x : α} {y : β} {c : γ} (hx : x ∈ l1) (hy : y ∈ l2) (hc : c ∈ f x y) :
    c ∈ concatMap l1 fun a => concatMap l2 fun b => f a b :=
  mem_concatMap.mpr ⟨x, hx, mem_concatMap.mpr ⟨y, hy, hc⟩⟩

theorem alookup_mem [DecidableEq α] :
    ∀ {l : List (α × β)} {k : α} {v : β}, alookup l k = some v → (k, v) ∈ l
  | [], _, _, h => by simp [alookup] at h
  | (k', v') :: rest, k, v, h => by
      by_cases hk : k' = k
      · subst hk
        rw [alookup, if_pos rfl] at h
        injection h with h
        subst h
        exact List.mem_cons_self _ _
      · simp only [alookup, if_neg hk] at h
        exact List.mem_cons_of_mem _ (alookup_mem h)

theorem alookup_isSome_iff [DecidableEq α] {l : List (α × β)} {k : α} :
    (alookup l k).isSome = true ↔ k ∈ l.map Prod.fst := by
  induction l with
  | nil => simp [alookup]
  | cons p rest ih =>
      obtain ⟨k', v'⟩ := p
      by_cases hk : k' = k
      · subst hk; simp [alookup]
      · simp [alookup, hk, ih, Ne.symm hk]

theorem alookup_dset_self [DecidableEq α] (l : List (α × β)) (k : α) (v : β) :
    alookup (dsetKV l k v) k = some v := by
  induction l with
  | nil => simp [dsetKV, alookup]
  | cons p rest ih =>
      obtain ⟨a, b⟩ := p
      by_cases hk : a = k
      · simp [dsetKV, hk, alookup]
      · simp [dsetKV, hk, alookup, ih]

theorem alookup_dset_ne [DecidableEq α] (l : List (α × β)) {k k' : α}
    (v : β) (h : k' ≠ k) : alookup (dsetKV l k v) k' = alookup l k' := by
  have h' : k ≠ k' := Ne.symm h
  induction l with
  | nil => simp [dsetKV, alookup, h']
  | cons p rest ih =>
      obtain ⟨a, b⟩ := p
      by_cases hk : a = k
      · subst hk
        simp [dsetKV, alookup, h']
      · simp [dsetKV, hk, alookup, ih]

theorem getGroupType_foldl_dset (l : List GroupId) (c : GType)
    (d : List (GroupId × GType)) (g : GroupId) :
    getGroupType (l.foldl (fun d x => dsetKV d x c) d) g =
      if g ∈ l then c else getGroupType d g := by
  induction l generalizing d with
  | nil => simp
  | cons x xs ih =>
      rw [List.foldl_cons, ih]
      by_cases hg : g = x
      · subst hg
        by_cases hxs : g ∈ xs <;>
          simp [hxs, getGroupType, alookup_dset_self]
      · by_cases hxs : g ∈ xs <;>
          simp [hxs, hg, getGroupType, alookup_dset_ne _ _ hg]

theorem getGroupType_update (cgs sgs : List GroupId) (g : GroupId) :
    getGroupType (updateGroupTypes [] cgs sgs) g =
      if g ∈ sgs then GType.studyGroup else GType.classGroup := by
  unfold updateGroupTypes
  rw [getGroupType_foldl_dset, getGroupType_foldl_dset]
  by_cases h : g ∈ sgs
  · simp [h]
  · by_cases h2 : g ∈ cgs <;> simp [h, h2, getGroupType, alookup]

theorem length_filter_of_map (f : α → β) (p : β → Bool) (l : List α) :
    ((l.map f).filter p).length = (l.filter fun x => p (f x)).length := by
  induction l with
  | nil => rfl
  | cons x xs ih => by_cases h : p (f x) <;> simp [List.filter_cons, h, ih]

theorem filter_and_filter (p q : α → Bool) (l : List α) :
    (l.filter p).filter q = l.filter fun x => p x && q x := by
  induction l with
  | nil => rfl
  | cons x xs ih =>
      by_cases hp : p x <;> by_cases hq : q x <;>
        simp [List.filter_cons, hp, hq, ih]

/-! ### Encoder state lemmas -/

theorem addVar_groupTypes (e : Encoder) (k : VKey) :
    (addVar e k).groupTypes = e.groupTypes := by
  unfold addVar; split <;> rfl

theorem addVar_cnf (e : Encoder) (k : VKey) : (addVar e k).cnf = e.cnf := by
  unfold addVar; split <;> rfl

theorem addVar_cards (e : Encoder) (k : VKey) :
    (addVar e k).cards = e.cards := by
  unfold addVar; split <;> rfl

theorem foldl_addVar_groupTypes (ks : List VKey) (e : Encoder) :
    (ks.foldl addVar e).groupTypes = e.groupTypes := by
  induction ks generalizing e with
  | nil => rfl
  | cons k ks ih => rw [List.foldl_cons, ih, addVar_groupTypes]

theorem foldl_addVar_cnf (ks : List VKey) (e : Encoder) :
    (ks.foldl addVar e).cnf = e.cnf := by
  induction ks generalizing e with
  | nil => rfl
  | cons k ks ih => rw [List.foldl_cons, ih, addVar_cnf]

theorem foldl_addVar_cards (ks : List VKey) (e : Encoder) :
    (ks.foldl addVar e).cards = e.cards := by
  induction ks generalizing e with
  | nil => rfl
  | cons k ks ih => rw [List.foldl_cons, ih, addVar_cards]

theorem encodeVariables_groupTypes (inp : SchedulingInput) (e : Encoder) :
    (encodeVariables inp e).groupTypes =
      updateGroupTypes e.groupTypes inp.classGroups inp.studyGroups := by
  unfold encodeVariables
  rw [foldl_addVar_groupTypes]

theorem encodeVariables_cnf (inp : SchedulingInput) (e : Encoder) :
    (encodeVariables inp e).cnf = e.cnf := by
  unfold encodeVariables
  rw [foldl_addVar_cnf]

theorem encodeVariables_cards (inp : SchedulingInput) (e : Encoder) :
    (encodeVariables inp e).cards = e.cards := by
  unfold encodeVariables
  rw [foldl_addVar_cards]

theorem mem_keys_addVar {e : Encoder} {k k' : VKey} :
    k' ∈ (addVar e k).vars.map Prod.fst ↔
      k' ∈ e.vars.map Prod.fst ∨ k' = k := by
  unfold addVar
  split
  · rename_i h
    constructor
    · exact Or.inl
    · rintro (h' | rfl)
      · exact h'
      · exact h
  · simp

theorem mem_keys_foldl_addVar {ks : List VKey} {e : Encoder} {k' : VKey} :
    k' ∈ (ks.foldl addVar e).vars.map Prod.fst ↔
      k' ∈ e.vars.map Prod.fst ∨ k' ∈ ks := by
  induction ks generalizing e with
  | nil => simp
  | cons k ks ih =>
      rw [List.foldl_cons, ih, mem_keys_addVar]
      simp [or_assoc]

theorem mem_keys_encodeVariables {inp : SchedulingInput} {e : Encoder}
    {k : VKey} :
    k ∈ (encodeVariables inp e).vars.map Prod.fst ↔
      k ∈ e.vars.map Prod.fst ∨
      k ∈ candidateKeys inp
        (updateGroupTypes e.groupTypes inp.classGroups inp.studyGroups) := by
  unfold encodeVariables
  rw [mem_keys_foldl_addVar]

theorem encWF_init : EncWF initEncoder := by
  constructor <;> simp [initEncoder]

theorem encWF_addVar {e : Encoder} (k : VKey) (h : EncWF e) :
    EncWF (addVar e k) := by
  unfold addVar
  split
  · exact h
  · rename_i hk
    refine ⟨?_, ?_, ?_, ?_⟩
    · simp only [List.map_append, List.map_cons, List.map_nil]
      rw [List.nodup_append]
      exact ⟨h.keysNodup, List.nodup_singleton _, by simpa using hk⟩
    · simp only [List.map_append, List.map_cons, List.map_nil]
      rw [List.nodup_append]
      refine ⟨h.valsNodup, List.nodup_singleton _, ?_⟩
      intro v hv
      have := (h.valsBound v hv).2
      simp
      omega
    · intro v hv
      dsimp only
      simp only [List.map_append, List.map_cons, List.map_nil,
        List.mem_append, List.mem_singleton] at hv
      rcases hv with hv | rfl
      · have := h.valsBound v hv
        exact ⟨this.1, by omega⟩
      · exact ⟨h.nextPos, by omega⟩
    · have := h.nextPos
      dsimp only
      omega

theorem encWF_foldl_addVar {ks : List VKey} {e : Encoder} (h : EncWF e) :
    EncWF (ks.foldl addVar e) := by
  induction ks generalizing e with
  | nil => exact h
  | cons k ks ih => exact ih (encWF_addVar k h)

theorem encWF_encodeVariables {inp : SchedulingInput} {e : Encoder}
    (h : EncWF e) : EncWF (encodeVariables inp e) := by
  unfold encodeVariables
  exact encWF_foldl_addVar ⟨h.keysNodup, h.valsNodup, h.valsBound, h.nextPos⟩

theorem vars_value_inj {e : Encoder} (h : EncWF e) {k1 k2 : VKey} {v : Nat}
    (h1 : (k1, v) ∈ e.vars) (h2 : (k2, v) ∈ e.vars) : k1 = k2 := by
  have hinj := List.inj_on_of_nodup_map (f := Prod.snd) h.valsNodup
  have heq : (k1, v) = (k2, v) := hinj h1 h2 rfl
  exact congrArg Prod.fst heq

theorem encodeHardConstraints_vars (g : CardGadget) (inp : SchedulingInput)
    (b : Bool) (e : Encoder) : (encodeHardConstraints g inp b e).vars = e.vars :=
  rfl

theorem encodeHardConstraints_groupTypes (g : CardGadget)
    (inp : SchedulingInput) (b : Bool) (e : Encoder) :
    (encodeHardConstraints g inp b e).groupTypes = e.groupTypes :=
  rfl

theorem encodeCustomConstraints_vars (cs : List CustomConstraint)
    (e : Encoder) : (encodeCustomConstraints cs e).vars = e.vars :=
  rfl

theorem fullEncoder_vars (g : CardGadget) (inp : SchedulingInput) :
    (fullEncoder g inp).vars = (encodeVariables inp initEncoder).vars :=
  rfl

theorem fullEncoder_groupTypes (g : CardGadget) (inp : SchedulingInput) :
    (fullEncoder g inp).groupTypes =
      (encodeVariables inp initEncoder).groupTypes :=
  rfl

/-! ### Characterization of the allocated variables -/

theorem mem_candidateKeys {inp : SchedulingInput}
    {gts : List (GroupId × GType)} {k : VKey} :
    k ∈ candidateKeys inp gts ↔
      k.lesson ∈ inp.lessons ∧ k.teacher ∈ inp.teachers ∧
      k.group ∈ inp.classGroups ++ inp.studyGroups ∧
      k.room ∈ inp.rooms ∧ k.slot ∈ inp.timeSlots ∧
      k.lesson ∈ lookupD inp.teacherLessons k.teacher [] ∧
      demandKeyForType inp gts k.group k.lesson = true := by
  unfold candidateKeys
  constructor
  · intro h
    rw [mem_concatMap] at h
    obtain ⟨l, hl, h⟩ := h
    rw [mem_concatMap] at h
    obtain ⟨t, ht, h⟩ := h
    by_cases hteach : l ∈ lookupD inp.teacherLessons t []
    · rw [if_pos hteach, mem_concatMap] at h
      obtain ⟨g, hg, h⟩ := h
      by_cases hdem : demandKeyForType inp gts g l = true
      · rw [if_pos hdem, mem_concatMap] at h
        obtain ⟨r, hr, h⟩ := h
        rw [List.mem_map] at h
        obtain ⟨s, hs, h⟩ := h
        subst h
        exact ⟨hl, ht, hg, hr, hs, hteach, hdem⟩
      · rw [if_neg hdem] at h
        simp at h
    · rw [if_neg hteach] at h
      simp at h
  · rintro ⟨hl, ht, hg, hr, hs, hteach, hdem⟩
    rw [mem_concatMap]
    refine ⟨k.lesson, hl, ?_⟩
    rw [mem_concatMap]
    refine ⟨k.teacher, ht, ?_⟩
    rw [if_pos hteach, mem_concatMap]
    refine ⟨k.group, hg, ?_⟩
    rw [if_pos hdem, mem_concatMap]
    refine ⟨k.room, hr, ?_⟩
    rw [List.mem_map]
    exact ⟨k.slot, hs, by cases k; rfl⟩

theorem key_ranges {inp : SchedulingInput} {k : VKey}
    (h : k ∈ (encodeVariables inp initEncoder).vars.map Prod.fst) :
    k.lesson ∈ inp.lessons ∧ k.teacher ∈ inp.teachers ∧
    k.group ∈ inp.classGroups ++ inp.studyGroups ∧
    k.room ∈ inp.rooms ∧ k.slot ∈ inp.timeSlots := by
  rw [mem_keys_encodeVariables] at h
  rcases h with h | h
  · simp [initEncoder] at h
  · have := mem_candidateKeys.mp h
    exact ⟨this.1, this.2.1, this.2.2.1, this.2.2.2.1, this.2.2.2.2.1⟩

/-! ### Clause semantics -/

theorem litSat_neg (a : Nat → Bool) (v : Nat) :
    litSat a (-(v : Int)) = !a v := by
  unfold litSat
  rw [if_neg (by omega)]
  norm_num

theorem litSat_pos (a : Nat → Bool) {v : Nat} (hv : 1 ≤ v) :
    litSat a ((v : Int)) = a v := by
  unfold litSat
  rw [if_pos (by omega)]
  norm_num

theorem cnfSat_mem {a : Nat → Bool} {cnf : List (List Int)} {c : List Int}
    (h : cnfSat a cnf = true) (hc : c ∈ cnf) : clauseSat a c = true :=
  List.all_eq_true.mp h c hc

theorem cardsSat_mem {a : Nat → Bool} {cards : List (List Nat × Nat)}
    {V : List Nat} {n : Nat} (h : cardsSat a cards = true)
    (hm : (V, n) ∈ cards) : countTrue a V = n := by
  have := List.all_eq_true.mp h _ hm
  simpa using this

theorem clauseSat_negPair {a : Nat → Bool} {v1 v2 : Nat}
    (h : clauseSat a [-(v1 : Int), -(v2 : Int)] = true) :
    a v1 = false ∨ a v2 = false := by
  simp only [clauseSat, List.any_cons, List.any_nil, Bool.or_false,
    Bool.or_eq_true, litSat_neg, Bool.not_eq_true'] at h
  exact h

theorem clauseSat_negUnit {a : Nat → Bool} {v : Nat}
    (h : clauseSat a [-(v : Int)] = true) : a v = false := by
  simp only [clauseSat, List.any_cons, List.any_nil, Bool.or_false,
    litSat_neg, Bool.not_eq_true'] at h
  exact h

theorem clauseSat_posUnit {a : Nat → Bool} {v : Nat} (hv : 1 ≤ v)
    (h : clauseSat a [(v : Int)] = true) : a v = true := by
  simp only [clauseSat, List.any_cons, List.any_nil, Bool.or_false,
    litSat_pos a hv] at h
  exact h

theorem both_true_contra {a : Nat → Bool} {v1 v2 : Nat}
    {cnf : List (List Int)} (hsat : cnfSat a cnf = true)
    (hc : [-(v1 : Int), -(v2 : Int)] ∈ cnf ∨ [-(v2 : Int), -(v1 : Int)] ∈ cnf)
    (ha1 : a v1 = true) (ha2 : a v2 = true) : False := by
  rcases hc with hc | hc <;>
    rcases clauseSat_negPair (cnfSat_mem hsat hc) with h | h <;>
      simp_all

theorem mem_varsWith {vars : List (VKey × Nat)} {p : VKey → Bool} {v : Nat} :
    v ∈ varsWith vars p ↔ ∃ k, (k, v) ∈ vars ∧ p k = true := by
  unfold varsWith
  simp only [List.mem_map, List.mem_filter, Prod.exists]
  constructor
  · rintro ⟨a, b, ⟨hm, hp⟩, rfl⟩
    exact ⟨a, hm, hp⟩
  · rintro ⟨k, hm, hp⟩
    exact ⟨k, v, ⟨hm, hp⟩, rfl⟩

theorem mem_pairwiseAMO {vs : List Nat} {v1 v2 : Nat}
    (h1 : v1 ∈ vs) (h2 : v2 ∈ vs) (hne : v1 ≠ v2) :
    [-(v1 : Int), -(v2 : Int)] ∈ pairwiseAMO vs ∨
    [-(v2 : Int), -(v1 : Int)] ∈ pairwiseAMO vs := by
  induction vs with
  | nil => simp at h1
  | cons x xs ih =>
      rcases List.mem_cons.mp h1 with rfl | h1'
      · rcases List.mem_cons.mp h2 with rfl | h2'
        · exact absurd rfl hne
        · left
          unfold pairwiseAMO
          rw [List.mem_append]
          exact Or.inl (List.mem_map_of_mem (fun w : Nat => [-(v1 : Int), -(w : Int)]) h2')
      · rcases List.mem_cons.mp h2 with rfl | h2'
        · right
          unfold pairwiseAMO
          rw [List.mem_append]
          exact Or.inl (List.mem_map_of_mem (fun w : Nat => [-(v2 : Int), -(w : Int)]) h1')
        · rcases ih h1' h2' with h | h
          · left
            unfold pairwiseAMO
            rw [List.mem_append]
            exact Or.inr h
          · right
            unfold pairwiseAMO
            rw [List.mem_append]
            exact Or.inr h

/-! ### Structure of the emitted formula -/

theorem cardStep_cards (g : CardGadget) (vars : List (VKey × Nat))
    (gr : GroupId) (acc : CardAcc) (lc : LessonId × Nat) :
    (cardStep g vars gr acc lc).cards = acc.cards ++ cardSpec1 vars gr lc := by
  simp only [cardStep, cardSpec1]
  split <;> simp

theorem foldl_cardStep_cards (g : CardGadget) (vars : List (VKey × Nat))
    (gr : GroupId) (lcs : List (LessonId × Nat)) (acc : CardAcc) :
    (lcs.foldl (cardStep g vars gr) acc).cards =
      acc.cards ++ concatMap lcs (cardSpec1 vars gr) := by
  induction lcs generalizing acc with
  | nil => simp [concatMap]
  | cons lc lcs ih =>
      rw [List.foldl_cons, ih, cardStep_cards]
      simp [concatMap]

theorem cardLoop_cards (g : CardGadget) (vars : List (VKey × Nat))
    (groups : List GroupId)
    (demands : List (GroupId × List (LessonId × Nat))) (acc : CardAcc) :
    (cardLoop g vars groups demands acc).cards =
      acc.cards ++ cardSpecs vars groups demands := by
  unfold cardLoop cardSpecs
  induction groups generalizing acc with
  | nil => simp [concatMap]
  | cons gr groups ih =>
      rw [List.foldl_cons, ih, foldl_cardStep_cards]
      simp [concatMap]

theorem mem_cardSpecs_of {vars : List (VKey × Nat)} {groups : List GroupId}
    {demands : List (GroupId × List (LessonId × Nat))} {G : GroupId}
    {ld : List (LessonId × Nat)} {L : LessonId} {n : Nat}
    (hG : G ∈ groups) (hld : alookup demands G = some ld)
    (hmem : (L, n) ∈ ld)
    (hlen : ¬ (vars.filter fun kv =>
        kv.1.lesson == L && kv.1.group == G).length < n) :
    (((vars.filter fun kv => kv.1.lesson == L && kv.1.group == G).map
        fun kv => kv.2), n) ∈ cardSpecs vars groups demands := by
  unfold cardSpecs
  refine mem_concatMap.mpr ⟨G, hG, ?_⟩
  refine mem_concatMap.mpr ⟨(L, n), ?_, ?_⟩
  · rw [lookupD, hld]
    exact hmem
  · simp only [cardSpec1, List.length_map]
    rw [if_neg hlen]
    simp

theorem fullEncoder_cnf (g : CardGadget) (inp : SchedulingInput) :
    (fullEncoder g inp).cnf =
      (demandCardAcc g inp).cnf ++ conflictClausesAll inp ++
      capacityClausesOf inp ++ customClausesOf inp := by
  simp [fullEncoder, encodeCustomConstraints, encodeHardConstraints,
    demandCardAcc, conflictClausesAll, capacityClausesOf, customClausesOf,
    List.append_assoc]

theorem diagEncoder_cnf (g : CardGadget) (inp : SchedulingInput) :
    (diagEncoder g inp).cnf =
      (demandCardAcc g inp).cnf ++ capacityClausesOf inp ++
      customClausesOf inp := by
  simp [diagEncoder, encodeCustomConstraints, encodeHardConstraints,
    demandCardAcc, capacityClausesOf, customClausesOf, List.append_assoc]

theorem fullEncoder_cards (g : CardGadget) (inp : SchedulingInput) :
    (fullEncoder g inp).cards = (demandCardAcc g inp).cards := by
  simp only [fullEncoder, encodeCustomConstraints, encodeHardConstraints,
    demandCardAcc]

theorem diagEncoder_cards (g : CardGadget) (inp : SchedulingInput) :
    (diagEncoder g inp).cards = (demandCardAcc g inp).cards := by
  simp only [diagEncoder, encodeCustomConstraints, encodeHardConstraints,
    demandCardAcc]

theorem demandCardAcc_cards (g : CardGadget) (inp : SchedulingInput) :
    (demandCardAcc g inp).cards =
      cardSpecs (encodeVariables inp initEncoder).vars inp.classGroups
        inp.classGroupLessons ++
      cardSpecs (encodeVariables inp initEncoder).vars inp.studyGroups
        inp.studyGroupLessons := by
  unfold demandCardAcc
  rw [cardLoop_cards, cardLoop_cards]
  simp [encodeVariables_cards, initEncoder]

theorem conflict_mem_fullEncoder_cnf {g : CardGadget} {inp : SchedulingInput}
    {c : List Int} (h : c ∈ conflictClausesAll inp) :
    c ∈ (fullEncoder g inp).cnf := by
  rw [fullEncoder_cnf]
  simp only [List.mem_append]
  tauto

/-! ### Prober lemmas -/

theorem checkPair_eq_nil_not_lt {vars : List (VKey × Nat)}
    {roomCaps : List (RoomId × Nat)} {g : GroupId} {gsize : Nat}
    {l : LessonId} {count : Nat}
    (h : checkPair vars roomCaps g gsize l count = []) :
    ¬ (vars.filter fun kv => kv.1.lesson == l && kv.1.group == g).length <
      count := by
  simp only [checkPair] at h
  split at h
  · simp at h
  · split at h
    · simp at h
    · split at h
      · rename_i h1 h2 h3
        exact h2
      · simp at h

theorem infeasibleLoop_nil_not_lt {vars : List (VKey × Nat)}
    {demands : List (GroupId × List (LessonId × Nat))}
    {sizes : List (GroupId × Nat)} {roomCaps : List (RoomId × Nat)}
    {G : GroupId} {ld : List (LessonId × Nat)} {L : LessonId} {n : Nat}
    (h : infeasibleLoop vars demands sizes roomCaps = [])
    (hld : (G, ld) ∈ demands) (hmem : (L, n) ∈ ld) :
    ¬ (vars.filter fun kv => kv.1.lesson == L && kv.1.group == G).length <
      n := by
  unfold infeasibleLoop at h
  rw [concatMap_eq_nil] at h
  have h2 := h (G, ld) hld
  rw [concatMap_eq_nil] at h2
  exact checkPair_eq_nil_not_lt (h2 (L, n) hmem)

/-! ### Generator inversion -/

theorem generate_ok_inv {g : CardGadget} {o : SolverOracle}
    {inp : SchedulingInput} {t : Nat} {entries : List ScheduleEntry}
    (h : generate g o inp t = GenResult.ok entries) :
    validateInput inp = none ∧
    getInfeasiblePairs inp (encodeVariables inp initEncoder) = [] ∧
    ∃ a, o (fullEncoder g inp).cnf (fullEncoder g inp).cards =
        SolveRes.sat a ∧
      entries = buildEntries (fullEncoder g inp).groupTypes
        (extractSchedule (fullEncoder g inp) a) := by
  unfold generate at h
  simp only [] at h
  split at h
  · simp at h
  · rename_i hv
    split at h
    · rename_i hinf
      split at h
      · rename_i a hs
        simp only [GenResult.ok.injEq] at h
        refine ⟨hv, List.isEmpty_iff.mp hinf, a, ?_, h.symm⟩
        exact hs
      · split at h <;> simp at h
    · simp at h

/-! ### Decoded-entry lemmas -/

theorem entryOf_lessonId (gts : List (GroupId × GType)) (k : VKey) :
    (entryOf gts k).lessonId = k.lesson := by
  unfold entryOf; split <;> rfl

theorem entryOf_teacherId (gts : List (GroupId × GType)) (k : VKey) :
    (entryOf gts k).teacherId = k.teacher := by
  unfold entryOf; split <;> rfl

theorem entryOf_roomId (gts : List (GroupId × GType)) (k : VKey) :
    (entryOf gts k).roomId = k.room := by
  unfold entryOf; split <;> rfl

theorem entryOf_timeSlotId (gts : List (GroupId × GType)) (k : VKey) :
    (entryOf gts k).timeSlotId = k.slot := by
  unfold entryOf; split <;> rfl

theorem entryOf_group_ne {gts : List (GroupId × GType)} {k1 k2 : VKey}
    (h : k1.group ≠ k2.group) :
    ((entryOf gts k1).classGroupId, (entryOf gts k1).studyGroupId) ≠
      ((entryOf gts k2).classGroupId, (entryOf gts k2).studyGroupId) := by
  unfold entryOf
  rcases h1 : getGroupType gts k1.group <;>
    rcases h2 : getGroupType gts k2.group <;>
      simp [h1, h2, h]

theorem entry_filter_pointwise (gts : List (GroupId × GType)) (L : LessonId)
    (G : GroupId) (k : VKey) :
    ((entryOf gts k).lessonId == L &&
        ((entryOf gts k).classGroupId == some G ||
          (entryOf gts k).studyGroupId == some G)) =
      (k.lesson == L && k.group == G) := by
  unfold entryOf
  by_cases hg : k.group = G <;>
    rcases h1 : getGroupType gts k.group <;>
      simp [h1, hg]

theorem count_entries_eq_countTrue (e : Encoder) (a : Nat → Bool)
    (L : LessonId) (G : GroupId) :
    ((buildEntries e.groupTypes (extractSchedule e a)).filter fun en =>
        en.lessonId == L &&
          (en.classGroupId == some G || en.studyGroupId == some G)).length =
      countTrue a ((e.vars.filter fun kv =>
        kv.1.lesson == L && kv.1.group == G).map fun kv => kv.2) := by
  unfold buildEntries extractSchedule countTrue
  rw [List.map_map, length_filter_of_map, length_filter_of_map,
    filter_and_filter, filter_and_filter]
  congr 1
  apply List.filter_congr
  intro kv _
  have := entry_filter_pointwise e.groupTypes L G kv.1
  simp only [Function.comp_apply]
  rw [this]
  exact Bool.and_comm _ _

/-- Claim C1 core: in any model of the full encoding that realizes the
recorded cardinality contracts, the decoded entries referencing a demand
pair `(G, L)` number exactly the demanded count. -/
theorem demand_count_core (g : CardGadget) (inp : SchedulingInput)
    (a : Nat → Bool) (G : GroupId) (L : LessonId)
    (ld : List (LessonId × Nat)) (n : Nat)
    (hinf : getInfeasiblePairs inp (encodeVariables inp initEncoder) = [])
    (hcards : cardsSat a (fullEncoder g inp).cards = true)
    (hvar : (G ∈ inp.classGroups ∧ alookup inp.classGroupLessons G = some ld) ∨
            (G ∈ inp.studyGroups ∧ alookup inp.studyGroupLessons G = some ld))
    (hmem : (L, n) ∈ ld) :
    ((buildEntries (fullEncoder g inp).groupTypes
        (extractSchedule (fullEncoder g inp) a)).filter fun en =>
          en.lessonId == L &&
            (en.classGroupId == some G || en.studyGroupId == some G)).length
      = n := by
  rw [count_entries_eq_countTrue]
  have hnil := List.append_eq_nil.mp hinf
  have hV : (((fullEncoder g inp).vars.filter fun kv =>
      kv.1.lesson == L && kv.1.group == G).map fun kv => kv.2, n) ∈
      (fullEncoder g inp).cards := by
    rw [fullEncoder_cards, demandCardAcc_cards, fullEncoder_vars]
    rcases hvar with ⟨hG, hld⟩ | ⟨hG, hld⟩
    · refine List.mem_append.mpr (Or.inl ?_)
      exact mem_cardSpecs_of hG hld hmem
        (infeasibleLoop_nil_not_lt hnil.1 (alookup_mem hld) hmem)
    · refine List.mem_append.mpr (Or.inr ?_)
      exact mem_cardSpecs_of hG hld hmem
        (infeasibleLoop_nil_not_lt hnil.2 (alookup_mem hld) hmem)
  exact cardsSat_mem hcards hV

/-! ### Collision-freedom core -/

theorem teacherCC_sub_conflictAll {inp : SchedulingInput} {c : List Int}
    (h : c ∈ teacherConflictClauses (encodeVariables inp initEncoder).vars
      inp.teachers inp.timeSlots) : c ∈ conflictClausesAll inp := by
  unfold conflictClausesAll
  simp only [List.mem_append]
  tauto

theorem groupCC_sub_conflictAll {inp : SchedulingInput} {c : List Int}
    (h : c ∈ groupConflictClauses (encodeVariables inp initEncoder).vars
      (inp.classGroups ++ inp.studyGroups) inp.timeSlots) :
    c ∈ conflictClausesAll inp := by
  unfold conflictClausesAll
  simp only [List.mem_append]
  tauto

theorem roomCC_sub_conflictAll {inp : SchedulingInput} {c : List Int}
    (h : c ∈ roomConflictClauses (encodeVariables inp initEncoder).vars
      inp.rooms inp.timeSlots) : c ∈ conflictClausesAll inp := by
  unfold conflictClausesAll
  simp only [List.mem_append]
  tauto

/-- Claim C2 core: in any model of the full encoding, two distinct
true-assigned variable entries sharing a slot differ in teacher, room and
group (the pairwise conflict clauses force it). -/
theorem schedule_keys_pairwise (g : CardGadget) (inp : SchedulingInput)
    (a : Nat → Bool)
    (hsat : cnfSat a (fullEncoder g inp).cnf = true) :
    ((fullEncoder g inp).vars.filter fun kv => a kv.2).Pairwise
      fun kv1 kv2 => kv1.1.slot = kv2.1.slot →
        kv1.1.teacher ≠ kv2.1.teacher ∧ kv1.1.room ≠ kv2.1.room ∧
        kv1.1.group ≠ kv2.1.group := by
  have hwf : EncWF (encodeVariables inp initEncoder) :=
    encWF_encodeVariables encWF_init
  have hnd : ((fullEncoder g inp).vars.filter fun kv => a kv.2).Nodup := by
    rw [fullEncoder_vars]
    exact (List.Nodup.of_map _ hwf.keysNodup).filter _
  refine List.Pairwise.imp_of_mem ?_ hnd
  intro kv1 kv2 hm1 hm2 hne hslot
  rw [fullEncoder_vars] at hm1 hm2
  have hv1 := List.mem_filter.mp hm1
  have hv2 := List.mem_filter.mp hm2
  have h1' : (kv1.1, kv1.2) ∈ (encodeVariables inp initEncoder).vars := by
    simpa using hv1.1
  have h2' : (kv2.1, kv2.2) ∈ (encodeVariables inp initEncoder).vars := by
    simpa using hv2.1
  have hvv : kv1.2 ≠ kv2.2 := by
    intro hveq
    apply hne
    have hk : kv1.1 = kv2.1 := vars_value_inj hwf h1' (hveq ▸ h2')
    calc kv1 = (kv1.1, kv1.2) := by simp
    _ = (kv2.1, kv2.2) := by rw [hk, hveq]
    _ = kv2 := by simp
  have hr1 := key_ranges (List.mem_map.mpr ⟨(kv1.1, kv1.2), h1', rfl⟩)
  refine ⟨?_, ?_, ?_⟩
  · intro hteq
    have mem1 : kv1.2 ∈ varsWith (encodeVariables inp initEncoder).vars
        fun k => k.teacher == kv1.1.teacher && k.slot == kv1.1.slot :=
      mem_varsWith.mpr ⟨kv1.1, h1', by simp⟩
    have mem2 : kv2.2 ∈ varsWith (encodeVariables inp initEncoder).vars
        fun k => k.teacher == kv1.1.teacher && k.slot == kv1.1.slot :=
      mem_varsWith.mpr ⟨kv2.1, h2', by simp [hteq, hslot]⟩
    have hblock : ∀ c ∈ pairwiseAMO (varsWith
        (encodeVariables inp initEncoder).vars
        fun k => k.teacher == kv1.1.teacher && k.slot == kv1.1.slot),
        c ∈ (fullEncoder g inp).cnf := by
      intro c hc
      refine conflict_mem_fullEncoder_cnf (teacherCC_sub_conflictAll ?_)
      unfold teacherConflictClauses
      exact mem_concatMap2 hr1.2.1 hr1.2.2.2.2 hc
    rcases mem_pairwiseAMO mem1 mem2 hvv with hc | hc
    · exact both_true_contra hsat (Or.inl (hblock _ hc)) hv1.2 hv2.2
    · exact both_true_contra hsat (Or.inl (hblock _ hc)) hv2.2 hv1.2
  · intro hreq
    have mem1 : kv1.2 ∈ varsWith (encodeVariables inp initEncoder).vars
        fun k => k.room == kv1.1.room && k.slot == kv1.1.slot :=
      mem_varsWith.mpr ⟨kv1.1, h1', by simp⟩
    have mem2 : kv2.2 ∈ varsWith (encodeVariables inp initEncoder).vars
        fun k => k.room == kv1.1.room && k.slot == kv1.1.slot :=
      mem_varsWith.mpr ⟨kv2.1, h2', by simp [hreq, hslot]⟩
    have hblock : ∀ c ∈ pairwiseAMO (varsWith
        (encodeVariables inp initEncoder).vars
        fun k => k.room == kv1.1.room && k.slot == kv1.1.slot),
        c ∈ (fullEncoder g inp).cnf := by
      intro c hc
      refine conflict_mem_fullEncoder_cnf (roomCC_sub_conflictAll ?_)
      unfold roomConflictClauses
      exact mem_concatMap2 hr1.2.2.2.1 hr1.2.2.2.2 hc
    rcases mem_pairwiseAMO mem1 mem2 hvv with hc | hc
    · exact both_true_contra hsat (Or.inl (hblock _ hc)) hv1.2 hv2.2
    · exact both_true_contra hsat (Or.inl (hblock _ hc)) hv2.2 hv1.2
  · intro hgeq
    have mem1 : kv1.2 ∈ varsWith (encodeVariables inp initEncoder).vars
        fun k => k.group == kv1.1.group && k.slot == kv1.1.slot :=
      mem_varsWith.mpr ⟨kv1.1, h1', by simp⟩
    have mem2 : kv2.2 ∈ varsWith (encodeVariables inp initEncoder).vars
        fun k => k.group == kv1.1.group && k.slot == kv1.1.slot :=
      mem_varsWith.mpr ⟨kv2.1, h2', by simp [hgeq, hslot]⟩
    have hblock : ∀ c ∈ pairwiseAMO (varsWith
        (encodeVariables inp initEncoder).vars
        fun k => k.group == kv1.1.group && k.slot == kv1.1.slot),
        c ∈ (fullEncoder g inp).cnf := by
      intro c hc
      refine conflict_mem_fullEncoder_cnf (groupCC_sub_conflictAll ?_)
      unfold groupConflictClauses
      exact mem_concatMap2 hr1.2.2.1 hr1.2.2.2.2 hc
    rcases mem_pairwiseAMO mem1 mem2 hvv with hc | hc
    · exact both_true_contra hsat (Or.inl (hblock _ hc)) hv1.2 hv2.2
    · exact both_true_contra hsat (Or.inl (hblock _ hc)) hv2.2 hv1.2

/-! ### Witness infrastructure -/

theorem oracleOf_sound (a : Nat → Bool) : SolverSound (oracleOf a) := by
  intro cnf cards b h
  unfold oracleOf at h
  split at h
  · rename_i hcond
    injection h with h
    subst h
    exact ⟨(Bool.and_eq_true _ _ |>.mp hcond).1,
      (Bool.and_eq_true _ _ |>.mp hcond).2⟩
  · exact absurd h (by simp)

/-! ### Claims -/

/-- Claim C1 (demand preservation): whenever `generate` succeeds — the
solver being sound for the encoding it is handed — the returned entry list
contains exactly `n` entries referencing a demand pair `(G, L)` whose
recorded count is `n`, for every pair of either demand map. -/
theorem C1_demand_preservation (g : CardGadget) (o : SolverOracle)
    (inp : SchedulingInput) (t : Nat) (entries : List ScheduleEntry)
    (G : GroupId) (L : LessonId) (ld : List (LessonId × Nat)) (n : Nat)
    (hsound : SolverSound o)
    (hok : generate g o inp t = GenResult.ok entries)
    (hvar : (G ∈ inp.classGroups ∧ alookup inp.classGroupLessons G = some ld) ∨
            (G ∈ inp.studyGroups ∧ alookup inp.studyGroupLessons G = some ld))
    (hmem : (L, n) ∈ ld) :
    (entries.filter fun en => en.lessonId == L &&
        (en.classGroupId == some G || en.studyGroupId == some G)).length = n := by
  obtain ⟨-, hinf, a, hs, rfl⟩ := generate_ok_inv hok
  exact demand_count_core g inp a G L ld n hinf (hsound _ _ _ hs).2 hvar hmem

theorem C1_witness :
    (w1Entries.filter fun en => en.lessonId == 0 &&
        (en.classGroupId == some 0 || en.studyGroupId == some 0)).length = 1 :=
  C1_demand_preservation trivGadget (oracleOf a1) w1Input 300 w1Entries
    0 0 [(0, 1)] 1 (oracleOf_sound a1) (by decide)
    (Or.inl ⟨by decide, by decide⟩) (by decide)

/-- Claim C2 (no resource collision): in a successful run, any two entries
sharing a time slot have different teachers, different rooms and different
groups (the group of an entry being its `class_group_id`/`study_group_id`
pair). -/
theorem C2_no_resource_collision (g : CardGadget) (o : SolverOracle)
    (inp : SchedulingInput) (t : Nat) (entries : List ScheduleEntry)
    (hsound : SolverSound o)
    (hok : generate g o inp t = GenResult.ok entries) :
    entries.Pairwise fun e1 e2 => e1.timeSlotId = e2.timeSlotId →
      e1.teacherId ≠ e2.teacherId ∧ e1.roomId ≠ e2.roomId ∧
      (e1.classGroupId, e1.studyGroupId) ≠ (e2.classGroupId, e2.studyGroupId) := by
  obtain ⟨-, -, a, hs, rfl⟩ := generate_ok_inv hok
  have hsat := (hsound _ _ _ hs).1
  have hkeys := schedule_keys_pairwise g inp a hsat
  unfold buildEntries extractSchedule
  rw [List.map_map, List.pairwise_map]
  refine hkeys.imp ?_
  intro kv1 kv2 hR hslot
  rw [Function.comp_apply, Function.comp_apply] at hslot ⊢
  rw [entryOf_timeSlotId, entryOf_timeSlotId] at hslot
  obtain ⟨hT, hRm, hG⟩ := hR hslot
  refine ⟨?_, ?_, ?_⟩
  · rw [entryOf_teacherId, entryOf_teacherId]
    exact hT
  · rw [entryOf_roomId, entryOf_roomId]
    exact hRm
  · exact entryOf_group_ne hG

theorem C2_witness :
    w1Entries.Pairwise fun e1 e2 => e1.timeSlotId = e2.timeSlotId →
      e1.teacherId ≠ e2.teacherId ∧ e1.roomId ≠ e2.roomId ∧
      (e1.classGroupId, e1.studyGroupId) ≠ (e2.classGroupId, e2.studyGroupId) :=
  C2_no_resource_collision trivGadget (oracleOf a1) w1Input 300 w1Entries
    (oracleOf_sound a1) (by decide)

/-- Claim C8 (exactly one group id): every entry of a successful run has
exactly one of `class_group_id` / `study_group_id` set — a class-group
entry carries `study_group_id = None` and a study-group entry carries
`class_group_id = None`. -/
theorem C8_exactly_one_group (g : CardGadget) (o : SolverOracle)
    (inp : SchedulingInput) (t : Nat) (entries : List ScheduleEntry)
    (hok : generate g o inp t = GenResult.ok entries) :
    ∀ en ∈ entries,
      (∃ gid, en.classGroupId = some gid ∧ en.studyGroupId = none) ∨
      (∃ gid, en.studyGroupId = some gid ∧ en.classGroupId = none) := by
  obtain ⟨-, -, a, -, rfl⟩ := generate_ok_inv hok
  intro en hen
  unfold buildEntries at hen
  rw [List.mem_map] at hen
  obtain ⟨k, -, rfl⟩ := hen
  unfold entryOf
  rcases h1 : getGroupType (fullEncoder g inp).groupTypes k.group <;> simp [h1]

theorem C8_witness :
    (∃ gid, (ScheduleEntry.mk 0 0 0 0 (some 0) none).classGroupId = some gid ∧
        (ScheduleEntry.mk 0 0 0 0 (some 0) none).studyGroupId = none) ∨
    (∃ gid, (ScheduleEntry.mk 0 0 0 0 (some 0) none).studyGroupId = some gid ∧
        (ScheduleEntry.mk 0 0 0 0 (some 0) none).classGroupId = none) :=
  C8_exactly_one_group trivGadget (oracleOf a1) w1Input 300 w1Entries
    (by decide) (ScheduleEntry.mk 0 0 0 0 (some 0) none) (by decide)

/-- Claim C9 (determinism of the encoding): two generator encoder runs on
identical input data (and the same external cardinality gadget) produce the
same variable numbering, the same variable count (`next_var`), the same
clause multiset and the same cardinality contracts. -/
theorem C9_determinism (g1 g2 : CardGadget) (i1 i2 : SchedulingInput)
    (hg : g1 = g2) (hi : i1 = i2) :
    (fullEncoder g1 i1).nextVar = (fullEncoder g2 i2).nextVar ∧
    (fullEncoder g1 i1).vars = (fullEncoder g2 i2).vars ∧
    Multiset.ofList (fullEncoder g1 i1).cnf =
      Multiset.ofList (fullEncoder g2 i2).cnf ∧
    (fullEncoder g1 i1).cards = (fullEncoder g2 i2).cards := by
  subst hg
  subst hi
  exact ⟨rfl, rfl, rfl, rfl⟩

theorem C9_witness :
    (fullEncoder trivGadget w1Input).nextVar =
      (fullEncoder trivGadget w1Input).nextVar ∧
    (fullEncoder trivGadget w1Input).vars =
      (fullEncoder trivGadget w1Input).vars ∧
    Multiset.ofList (fullEncoder trivGadget w1Input).cnf =
      Multiset.ofList (fullEncoder trivGadget w1Input).cnf ∧
    (fullEncoder trivGadget w1Input).cards =
      (fullEncoder trivGadget w1Input).cards :=
  C9_determinism trivGadget trivGadget w1Input w1Input rfl rfl

/-- Claim C3 counterexample: with the always-UNSAT engine and a timeout of
0 seconds (which any actual solving exceeds), the core and `generate`
return an ordinary UNSAT diagnostic — not a timeout outcome — and the
result does not depend on the timeout at all, because the
`set_timeout` attempt raises `AttributeError` and is swallowed. -/
theorem C3_counterexample :
    generate trivGadget constUnsatOracle w1Input 0 =
      GenResult.capacityOrAvailability ∧
    generate trivGadget constUnsatOracle w1Input 0 =
      generate trivGadget constUnsatOracle w1Input 300 := by
  exact ⟨by decide, by decide⟩

/-- Claim C3 amended: the SAT core has exactly two outcomes, `Sat(model)`
and `Unsat`; the timeout argument has no effect on the outcome of the core
or of `generate`, and no timeout-specific result exists. -/
theorem C3_amended_two_outcomes (g : CardGadget) (o : SolverOracle)
    (e : Encoder) (inp : SchedulingInput) (t1 t2 : Nat) :
    solverSolve o e t1 = solverSolve o e t2 ∧
    generate g o inp t1 = generate g o inp t2 ∧
    ∀ r : SolveRes, (∃ b, r = SolveRes.sat b) ∨ r = SolveRes.unsat := by
  refine ⟨rfl, rfl, ?_⟩
  intro r
  cases r with
  | sat b => exact Or.inl ⟨b, rfl⟩
  | unsat => exact Or.inr rfl

/-- Claim C6: when the prober reports any infeasible pair (and structural
validation passed), `generate` returns the full infeasible list, the result
is independent of the solver — the solver is never consulted — and the
encoder at that point holds no clause and no cardinality contract. -/
theorem C6_infeasible_aborts (g : CardGadget) (o : SolverOracle)
    (inp : SchedulingInput) (t : Nat)
    (hv : validateInput inp = none)
    (hne : getInfeasiblePairs inp (encodeVariables inp initEncoder) ≠ []) :
    generate g o inp t = GenResult.infeasible
      (getInfeasiblePairs inp (encodeVariables inp initEncoder)) ∧
    (∀ o2 : SolverOracle, generate g o2 inp t = generate g o inp t) ∧
    (encodeVariables inp initEncoder).cnf = [] ∧
    (encodeVariables inp initEncoder).cards = [] := by
  have hb : ¬ ((getInfeasiblePairs inp
      (encodeVariables inp initEncoder)).isEmpty = true) := by
    simpa [List.isEmpty_iff] using hne
  have hgen : ∀ o2 : SolverOracle, generate g o2 inp t =
      GenResult.infeasible
        (getInfeasiblePairs inp (encodeVariables inp initEncoder)) := by
    intro o2
    unfold generate
    rw [hv]
    dsimp only
    rw [if_neg hb]
  refine ⟨hgen o, fun o2 => (hgen o2).trans (hgen o).symm, ?_, ?_⟩
  · rw [encodeVariables_cnf]
    rfl
  · rw [encodeVariables_cards]
    rfl

theorem C6_witness :
    generate trivGadget constUnsatOracle cex6Input 300 =
      GenResult.infeasible [(0, 0, InfeasibleReason.noCapacity)] ∧
    (encodeVariables cex6Input initEncoder).cnf = [] :=
  have h := C6_infeasible_aborts trivGadget constUnsatOracle cex6Input 300
    (by decide) (by decide)
  ⟨h.1.trans (by decide), h.2.2.1⟩

/-- Claim C7: on UNSAT of the full encoding (validation and prober having
passed), `generate` rebuilds a stripped encoding from scratch and re-solves
it; a satisfiable stripped formula yields the resource-conflict error and
an unsatisfiable one the capacity/unavailability error.  The stripped
encoding keeps exactly the demand-cardinality contracts and clauses, the
capacity pruning and the custom constraints, and drops the five pairwise
conflict blocks. -/
theorem C7_unsat_diagnosis (g : CardGadget) (o : SolverOracle)
    (inp : SchedulingInput) (t : Nat)
    (hv : validateInput inp = none)
    (hinf : getInfeasiblePairs inp (encodeVariables inp initEncoder) = [])
    (hunsat : solverSolve o (fullEncoder g inp) t = SolveRes.unsat) :
    (generate g o inp t =
      match solverSolve o (diagEncoder g inp) t with
      | SolveRes.sat _ => GenResult.resourceConflict
      | SolveRes.unsat => GenResult.capacityOrAvailability) ∧
    (diagEncoder g inp).cards = (fullEncoder g inp).cards ∧
    (fullEncoder g inp).cnf =
      (demandCardAcc g inp).cnf ++ conflictClausesAll inp ++
      capacityClausesOf inp ++ customClausesOf inp ∧
    (diagEncoder g inp).cnf =
      (demandCardAcc g inp).cnf ++ capacityClausesOf inp ++
      customClausesOf inp := by
  refine ⟨?_, by rw [diagEncoder_cards, fullEncoder_cards],
    fullEncoder_cnf g inp, diagEncoder_cnf g inp⟩
  unfold generate
  rw [hv]
  dsimp only
  rw [if_pos (by simp [hinf])]
  rw [hunsat]

theorem C7_witness :
    generate trivGadget constUnsatOracle w1Input 300 =
      GenResult.capacityOrAvailability ∧
    (diagEncoder trivGadget w1Input).cards =
      (fullEncoder trivGadget w1Input).cards :=
  have h := C7_unsat_diagnosis trivGadget constUnsatOracle w1Input 300
    (by decide) (by decide) rfl
  ⟨h.1, h.2.1⟩

/-- Claim C4 counterexample: with a demand entry of count 0 the encoder
still allocates a variable for the tuple — the guard tests key membership,
not `demand[G][L] > 0`. -/
theorem C4_counterexample :
    (alookup (encodeVariables cex4Input initEncoder).vars
      (VKey.mk 0 0 0 0 0)).isSome = true ∧
    alookup (lookupD cex4Input.classGroupLessons 0 []) 0 = some 0 := by
  exact ⟨by decide, by decide⟩

/-- Claim C4 amended: over the enumerated collections, a tuple gets a
variable (and every allocated variable is ≥ 1) iff the teacher can teach
the lesson and the lesson is a key of the demand map matching the group's
recorded variant — the demand count value, the room and the slot are never
a reason to withhold a variable. -/
theorem C4_variable_allocation (inp : SchedulingInput) (k : VKey)
    (hL : k.lesson ∈ inp.lessons) (hT : k.teacher ∈ inp.teachers)
    (hG : k.group ∈ inp.classGroups ++ inp.studyGroups)
    (hR : k.room ∈ inp.rooms) (hS : k.slot ∈ inp.timeSlots) :
    ((alookup (encodeVariables inp initEncoder).vars k).isSome = true ↔
      (k.lesson ∈ lookupD inp.teacherLessons k.teacher [] ∧
        demandHasKey inp k.group k.lesson = true)) ∧
    ∀ v, alookup (encodeVariables inp initEncoder).vars k = some v → 1 ≤ v := by
  constructor
  · rw [alookup_isSome_iff, mem_keys_encodeVariables]
    constructor
    · rintro (h | h)
      · simp [initEncoder] at h
      · have hc := mem_candidateKeys.mp h
        exact ⟨hc.2.2.2.2.2.1, hc.2.2.2.2.2.2⟩
    · rintro ⟨h6, h7⟩
      exact Or.inr (mem_candidateKeys.mpr ⟨hL, hT, hG, hR, hS, h6, h7⟩)
  · intro v hv
    have hwf : EncWF (encodeVariables inp initEncoder) :=
      encWF_encodeVariables encWF_init
    exact (hwf.valsBound v (List.mem_map.mpr ⟨(k, v), alookup_mem hv, rfl⟩)).1

theorem C4_witness :
    (alookup (encodeVariables w1Input initEncoder).vars
      (VKey.mk 0 0 0 0 0)).isSome = true :=
  ((C4_variable_allocation w1Input (VKey.mk 0 0 0 0 0) (by decide) (by decide)
    (by decide) (by decide) (by decide)).1).mpr ⟨by decide, by decide⟩

/-! ### Prober characterization (claim C5) -/

theorem checkPair_mem_inv {vars : List (VKey × Nat)}
    {roomCaps : List (RoomId × Nat)} {g : GroupId} {gsize : Nat}
    {l : LessonId} {count : Nat} {L : LessonId} {G : GroupId}
    {r : InfeasibleReason}
    (h : (L, G, r) ∈ checkPair vars roomCaps g gsize l count) :
    L = l ∧ G = g ∧ pairFails vars roomCaps g gsize l count := by
  simp only [checkPair] at h
  simp only [pairFails]
  split at h
  · rename_i h1
    simp at h
    exact ⟨h.1, h.2.1, Or.inl (List.isEmpty_iff.mp h1)⟩
  · split at h
    · rename_i h1 h2
      simp at h
      exact ⟨h.1, h.2.1, Or.inr (Or.inl h2)⟩
    · split at h
      · simp at h
      · rename_i h1 h2 h3
        simp at h
        refine ⟨h.1, h.2.1, Or.inr (Or.inr ?_)⟩
        intro kv hkv
        have hall := List.any_eq_false.mp (Bool.not_eq_true _ |>.mp h3) kv hkv
        simp only [decide_eq_true_eq, not_le] at hall
        exact hall

theorem checkPair_mem_of {vars : List (VKey × Nat)}
    {roomCaps : List (RoomId × Nat)} {g : GroupId} {gsize : Nat}
    {l : LessonId} {count : Nat}
    (h : pairFails vars roomCaps g gsize l count) :
    ∃ r, (l, g, r) ∈ checkPair vars roomCaps g gsize l count := by
  simp only [pairFails] at h
  simp only [checkPair]
  split
  · exact ⟨InfeasibleReason.noTeacher, by simp⟩
  · split
    · exact ⟨InfeasibleReason.notEnough count
        (vars.filter fun kv => kv.1.lesson == l && kv.1.group == g).length,
        by simp⟩
    · split
      · rename_i h1 h2 h3
        rcases h with h | h | h
        · exact absurd (by simp [h]) h1
        · exact absurd h h2
        · obtain ⟨kv, hkv, hge⟩ := List.any_eq_true.mp h3
          have := h kv hkv
          simp only [decide_eq_true_eq] at hge
          omega
      · exact ⟨InfeasibleReason.noCapacity, by simp⟩

theorem exists_mem_infeasibleLoop {vars : List (VKey × Nat)}
    {demands : List (GroupId × List (LessonId × Nat))}
    {sizes : List (GroupId × Nat)} {roomCaps : List (RoomId × Nat)}
    {L : LessonId} {G : GroupId} :
    (∃ r, (L, G, r) ∈ infeasibleLoop vars demands sizes roomCaps) ↔
      ∃ ld, (G, ld) ∈ demands ∧ ∃ n, (L, n) ∈ ld ∧
        pairFails vars roomCaps G (lookupD sizes G 0) L n := by
  unfold infeasibleLoop
  constructor
  · rintro ⟨r, hr⟩
    rw [mem_concatMap] at hr
    obtain ⟨⟨g, ld⟩, hgld, hr⟩ := hr
    rw [mem_concatMap] at hr
    obtain ⟨⟨l, n⟩, hlc, hr⟩ := hr
    obtain ⟨hL, hG, hfail⟩ := checkPair_mem_inv hr
    subst hL
    subst hG
    exact ⟨ld, hgld, n, hlc, hfail⟩
  · rintro ⟨ld, hgld, n, hlc, hfail⟩
    obtain ⟨r, hr⟩ := checkPair_mem_of hfail
    exact ⟨r, mem_concatMap.mpr ⟨(G, ld), hgld,
      mem_concatMap.mpr ⟨(L, n), hlc, hr⟩⟩⟩

/-- Claim C5 counterexample: a `(lesson, group)` pair with demand count 0
and no capable teacher still receives a diagnostic, contradicting the
claim's `n > 0` requirement. -/
theorem C5_counterexample :
    getInfeasiblePairs cex5Input (encodeVariables cex5Input initEncoder) =
      [(7, 5, InfeasibleReason.noTeacher)] ∧
    alookup (lookupD cex5Input.classGroupLessons 5 []) 7 = some 0 := by
  exact ⟨by decide, by decide⟩

/-- Claim C5 amended: the prober emits a diagnostic for `(L, G)` iff the
pair appears as an item of one of the two demand maps — regardless of its
count `n` — and its variable set is empty, or smaller than `n`, or contains
no variable whose room can seat the group. -/
theorem C5_prober_characterization (inp : SchedulingInput) (L : LessonId)
    (G : GroupId) :
    (∃ r, (L, G, r) ∈
        getInfeasiblePairs inp (encodeVariables inp initEncoder)) ↔
      ((∃ ld, (G, ld) ∈ inp.classGroupLessons ∧ ∃ n, (L, n) ∈ ld ∧
          pairFails (encodeVariables inp initEncoder).vars inp.roomCapacities
            G (lookupD inp.classGroupSizes G 0) L n) ∨
       (∃ ld, (G, ld) ∈ inp.studyGroupLessons ∧ ∃ n, (L, n) ∈ ld ∧
          pairFails (encodeVariables inp initEncoder).vars inp.roomCapacities
            G (lookupD inp.studyGroupSizes G 0) L n)) := by
  unfold getInfeasiblePairs
  constructor
  · rintro ⟨r, hr⟩
    rcases List.mem_append.mp hr with hr | hr
    · exact Or.inl (exists_mem_infeasibleLoop.mp ⟨r, hr⟩)
    · exact Or.inr (exists_mem_infeasibleLoop.mp ⟨r, hr⟩)
  · rintro (h | h)
    · obtain ⟨r, hr⟩ := exists_mem_infeasibleLoop.mpr h
      exact ⟨r, List.mem_append.mpr (Or.inl hr)⟩
    · obtain ⟨r, hr⟩ := exists_mem_infeasibleLoop.mpr h
      exact ⟨r, List.mem_append.mpr (Or.inr hr)⟩

/-! ### Soft constraints (claim C10) -/

theorem softUnitClauses_length (vars : List (VKey × Nat))
    (keys : List VKey) :
    (softUnitClauses vars keys).length =
      (keys.filter fun k => (alookup vars k).isSome).length := by
  induction keys with
  | nil => rfl
  | cons k ks ih =>
      show ((match alookup vars k with
        | some v => [[(v : Int)]]
        | none => []) ++ softUnitClauses vars ks).length = _
      rcases h : alookup vars k with _ | v <;>
        simp [List.filter_cons, h, ih]

/-- Claim C10: every `teacher_preferences` tuple with an encoded variable
contributes a positive unit clause, so any satisfying assignment makes that
variable true (the preference is enforced as hard); tuples without an
encoded variable contribute nothing — the appended clauses number exactly
the encoded tuples. -/
theorem C10_soft_preferences_are_hard (prefs : SoftPreferences) (e : Encoder)
    (keys : List VKey) (hp : prefs.teacherPreferences = some keys)
    (hpos : ∀ kv ∈ e.vars, 1 ≤ kv.2) :
    (∀ k ∈ keys, ∀ v, alookup e.vars k = some v →
        [(v : Int)] ∈ (encodeSoftConstraints prefs e).cnf) ∧
    (∀ a, cnfSat a (encodeSoftConstraints prefs e).cnf = true →
        ∀ k ∈ keys, ∀ v, alookup e.vars k = some v → a v = true) ∧
    (encodeSoftConstraints prefs e).cnf.length =
      e.cnf.length + (keys.filter fun k => (alookup e.vars k).isSome).length := by
  have hcnf : (encodeSoftConstraints prefs e).cnf =
      e.cnf ++ softUnitClauses e.vars keys := by
    unfold encodeSoftConstraints
    rw [hp]
  have hmemcl : ∀ k ∈ keys, ∀ v, alookup e.vars k = some v →
      [(v : Int)] ∈ (encodeSoftConstraints prefs e).cnf := by
    intro k hk v hv
    rw [hcnf]
    refine List.mem_append.mpr (Or.inr ?_)
    unfold softUnitClauses
    refine mem_concatMap.mpr ⟨k, hk, ?_⟩
    rw [hv]
    simp
  refine ⟨hmemcl, ?_, ?_⟩
  · intro a ha k hk v hv
    have h1 : 1 ≤ v := hpos (k, v) (alookup_mem hv)
    exact clauseSat_posUnit h1 (cnfSat_mem ha (hmemcl k hk v hv))
  · rw [hcnf, List.length_append, softUnitClauses_length]

theorem C10_witness :
    (encodeSoftConstraints
        (SoftPreferences.mk none (some [VKey.mk 0 0 0 0 0, VKey.mk 1 1 1 1 1]))
        (encodeVariables w1Input initEncoder)).cnf.length =
      (encodeVariables w1Input initEncoder).cnf.length +
      ([VKey.mk 0 0 0 0 0, VKey.mk 1 1 1 1 1].filter fun k =>
        (alookup (encodeVariables w1Input initEncoder).vars k).isSome).length :=
  (C10_soft_preferences_are_hard
    (SoftPreferences.mk none (some [VKey.mk 0 0 0 0 0, VKey.mk 1 1 1 1 1]))
    (encodeVariables w1Input initEncoder)
    [VKey.mk 0 0 0 0 0, VKey.mk 1 1 1 1 1] rfl (by decide)).2.2

end Planerka
